import Mathlib

/-!
Shallow embedding of the `listings` Django app of alx_travel_app_0x01.

Records are embedded as Lean structures keeping only the fields the
validation logic reads (free-text fields such as titles, descriptions and
timestamps are dropped; they are never inspected by any rule).  Decimal
amounts are modelled as exact rationals, dates as proleptic-Gregorian day
ordinals (so Python's `(d2 - d1).days` is plain integer subtraction), and
primary/foreign keys as naturals.  Fallible operations return
`Except FieldError` (serializer pipelines) or `Option` (paths whose Python
counterpart raises an uncaught exception).  The random draws of the seed
command are modelled as explicit oracle functions whose codomains are the
exact ranges the corresponding `random.choice` / `random.randint` calls can
produce.
-/

/-- A stored user (Django auth user); only the fields read by the app. -/
structure User where
  userId : Nat
  username : String
  is_superuser : Bool
  deriving Repr, DecidableEq

/-- `Listing` model (models.py); validation-relevant fields only. -/
structure Listing where
  listing_id : Nat
  host : Nat
  price_per_night : Int
  max_guests : Nat
  availability : Bool
  deriving Repr, DecidableEq

/-- `Booking` model (models.py); `property` holds the listing foreign key. -/
structure Booking where
  property : Nat
  user : Nat
  check_in : Int
  check_out : Int
  guests : Nat
  total_price : Int
  status : String
  deriving Repr, DecidableEq

/-- `Review` model (models.py). -/
structure Review where
  property : Nat
  user : Nat
  rating : Nat
  comment : String
  deriving Repr, DecidableEq

/-- The relational store backing the app. -/
structure Store where
  users : List User
  listings : List Listing
  bookings : List Booking
  reviews : List Review
  deriving Repr, DecidableEq

/-- A field-scoped validation error (DRF / Django style). -/
structure FieldError where
  field : String
  message : String
  deriving Repr, DecidableEq

deriving instance DecidableEq for Except

/-- Foreign-key resolution of a listing id. -/
def Store.findListing (s : Store) (lid : Nat) : Option Listing :=
  s.listings.find? (fun l => l.listing_id == lid)

/-- `ReviewSerializer.validate_rating` (serializers.py lines 30-35). -/
def validate_rating (value : Nat) : Except FieldError Nat :=
  if ¬ (1 ≤ value ∧ value ≤ 5) then
    .error ⟨"rating", "Rating must be between 1 and 5."⟩
  else .ok value

/-- `BookingSerializer.validate_guests` (serializers.py lines 137-142). -/
def validate_guests (value : Nat) : Except FieldError Nat :=
  if value < 1 then
    .error ⟨"guests", "Number of guests must be at least 1."⟩
  else .ok value

/-- `BookingSerializer.validate_total_price` (serializers.py lines 144-149). -/
def validate_total_price (value : Int) : Except FieldError Int :=
  if value ≤ 0 then
    .error ⟨"total_price", "Total price must be greater than 0."⟩
  else .ok value

/-- `BookingSerializer.validate` (serializers.py lines 107-135): object-level
checks on dates, guest count against the listing, and availability.  The
listing is `Option`-valued mirroring `data.get('property')`. -/
def BookingSerializer.validate (property_obj : Option Listing)
    (check_in check_out : Int) (guests : Nat) : Except FieldError Unit :=
  if check_out ≤ check_in then
    .error ⟨"check_out", "Check-out date must be after check-in date."⟩
  else
    match property_obj with
    | some p =>
      if guests > p.max_guests then
        .error ⟨"guests", "Number of guests exceeds maximum allowed."⟩
      else if p.availability = false then
        .error ⟨"property", "This property is not currently available for booking."⟩
      else .ok ()
    | none => .ok ()

/-- `Booking.duration_days` (models.py lines 143-146). -/
def Booking.duration_days (b : Booking) : Int :=
  b.check_out - b.check_in

/-- `Booking.clean` (models.py lines 148-159): date order and guest count;
errors raised here are Django non-field errors (bucket `__all__`). -/
def Booking.clean (b : Booking) (prop : Listing) : Except FieldError Unit :=
  if b.check_out ≤ b.check_in then
    .error ⟨"__all__", "Check-out date must be after check-in date."⟩
  else if b.guests > prop.max_guests then
    .error ⟨"__all__", "Number of guests exceeds maximum allowed."⟩
  else .ok ()

/-- Django `full_clean` on a booking: field validators
(`guests ≥ 1`, `total_price ≥ 0.01`, i.e. one cent, from the model field
declarations) followed by `Booking.clean`. -/
def Booking.full_clean (b : Booking) (prop : Listing) : Except FieldError Unit :=
  if b.guests < 1 then
    .error ⟨"guests", "Ensure this value is greater than or equal to 1."⟩
  else if b.total_price < 1 then
    .error ⟨"total_price", "Ensure this value is greater than or equal to 0.01."⟩
  else Booking.clean b prop

/-- `Booking.save` (models.py lines 161-163): `full_clean` then persist.
Every booking write in the app funnels through this. -/
def Booking.save (s : Store) (b : Booking) : Except FieldError Store :=
  match s.findListing b.property with
  | none => .error ⟨"property", "Related listing does not exist."⟩
  | some prop =>
    match Booking.full_clean b prop with
    | .error e => .error e
    | .ok _ => .ok { s with bookings := s.bookings ++ [b] }

/-- Wire payload accepted by `BookingSerializer` on create. -/
structure BookingInput where
  property_id : Nat
  user_id : Nat
  check_in : Int
  check_out : Int
  guests : Nat
  total_price : Int
  status : String
  deriving Repr, DecidableEq

/-- The booking record a `BookingSerializer` payload deserializes to. -/
def mkBooking (inp : BookingInput) : Booking :=
  ⟨inp.property_id, inp.user_id, inp.check_in, inp.check_out, inp.guests,
    inp.total_price, inp.status⟩

/-- Full create pipeline of `BookingSerializer` (the serializer used by
`BookingViews`): field validators, object-level `validate`, then model save. -/
def bookingSerializerCreate (s : Store) (inp : BookingInput) :
    Except FieldError Store :=
  (validate_guests inp.guests).bind (fun _ =>
  (validate_total_price inp.total_price).bind (fun _ =>
  (BookingSerializer.validate (s.findListing inp.property_id)
      inp.check_in inp.check_out inp.guests).bind (fun _ =>
  Booking.save s (mkBooking inp))))

/-- Wire payload accepted by `BookingCreateSerializer`
(serializers.py lines 167-196); it has no `total_price` field. -/
structure BookingCreateInput where
  property_id : Nat
  check_in : Int
  check_out : Int
  guests : Nat
  deriving Repr, DecidableEq

/-- Full create pipeline of `BookingCreateSerializer`: its `validate`
(lines 178-191) only computes `total_price = price_per_night * duration`;
it performs NO availability check, and `create` (lines 193-196) takes the
user from the request and saves. -/
def bookingCreateSerializerCreate (s : Store) (request_user : Nat)
    (inp : BookingCreateInput) : Except FieldError Store :=
  match s.findListing inp.property_id with
  | none => .error ⟨"property_id", "Invalid listing reference."⟩
  | some property_obj =>
    let duration : Int := inp.check_out - inp.check_in
    let total_price : Int := property_obj.price_per_night * duration
    Booking.save s
      ⟨inp.property_id, request_user, inp.check_in, inp.check_out,
        inp.guests, total_price, "pending"⟩

/-- Wire payload accepted by `ReviewSerializer`. -/
structure ReviewInput where
  property_id : Nat
  user_id : Nat
  rating : Nat
  comment : String
  deriving Repr, DecidableEq

/-- Insert of a review at the storage boundary, enforcing the
`unique_user_property_review` constraint of `Review.Meta`
(models.py lines 200-205); `none` models the integrity violation. -/
def Store.reviewCreate (s : Store) (r : Review) : Option Store :=
  if s.reviews.any (fun r0 => r0.property == r.property && r0.user == r.user) then
    none
  else some { s with reviews := s.reviews ++ [r] }

/-- Full create pipeline of `ReviewSerializer` (serializers.py lines 16-35):
`validate_rating`, then storage insert under the uniqueness constraint.
Note: the serializer performs NO check that the reviewer differs from the
listing's host. -/
def reviewSerializerCreate (s : Store) (inp : ReviewInput) :
    Except FieldError Store :=
  (validate_rating inp.rating).bind (fun _ =>
    match Store.reviewCreate s ⟨inp.property_id, inp.user_id, inp.rating, inp.comment⟩ with
    | none => .error ⟨"non_field_errors", "The fields property, user must make a unique set."⟩
    | some s' => .ok s')

/-- Reviews associated to a listing (`self.reviews.all()`). -/
def Store.listingReviews (s : Store) (l : Listing) : List Review :=
  s.reviews.filter (fun r => r.property == l.listing_id)

/-- Round to the nearest integer, ties to even (Python's `round`). -/
def roundHalfEven (x : ℚ) : ℤ :=
  let f := ⌊x⌋
  if x - f < 1 / 2 then f
  else if x - f > 1 / 2 then f + 1
  else if f % 2 = 0 then f else f + 1

/-- Round to one decimal place, ties to even (Python's `round(x, 1)`). -/
def round1 (x : ℚ) : ℚ :=
  (roundHalfEven (10 * x) : ℚ) / 10

/-- Floor of the base-2 logarithm of `n` (Python `n.bit_length() - 1` for
`n ≥ 1`), by structural halving; the first argument is fuel, and fuel `n`
suffices since a number `≥ 2` strictly shrinks when halved. -/
def floorLog2Aux : Nat → Nat → Nat
  | 0, _ => 0
  | fuel + 1, n => if 2 ≤ n then floorLog2Aux fuel (n / 2) + 1 else 0

/-- Floor of log₂ (0 for inputs below 2). -/
def floorLog2 (n : Nat) : Nat :=
  floorLog2Aux n n

/-- Decides `2 ^ e ≤ s / n` (for `n > 0`) by cross-multiplication. -/
def expLe (s n : Nat) (e : Int) : Bool :=
  if 0 ≤ e then decide (n * 2 ^ e.toNat ≤ s) else decide (n ≤ s * 2 ^ (-e).toNat)

/-- Round `num / den` (with `den > 0`) to the nearest natural, ties to
even — the rounding both IEEE 754 and Python's `round` use. -/
def rneDiv (num den : Nat) : Nat :=
  let q := num / den
  let r := num % den
  if 2 * r < den then q
  else if den < 2 * r then q + 1
  else if q % 2 = 0 then q else q + 1

/-- The binary exponent `e` with `2 ^ e ≤ s / n < 2 ^ (e + 1)`, for
`s, n ≥ 1`: from `2 ^ a ≤ s < 2 ^ (a + 1)` and `2 ^ b ≤ n < 2 ^ (b + 1)`
the quotient lies in `(2 ^ (a - b - 1), 2 ^ (a - b + 1))`, so with
`e0 = a - b - 1` the exponent is `e0 + 1` exactly when
`2 ^ (e0 + 1) ≤ s / n`, else `e0`. -/
def fl64exp (s n : Nat) : Int :=
  let e0 : Int := (floorLog2 s : Int) - (floorLog2 n : Int) - 1
  if expLe s n (e0 + 1) then e0 + 1 else e0

/-- The 53-bit significand of the binary64 value nearest `s / n` (round to
nearest, ties to even): `s / n` scaled into `[2 ^ 52, 2 ^ 53]` and rounded.
(A carry to `2 ^ 53` is kept unnormalized; the represented value is the
same.) -/
def fl64sig (s n : Nat) : Nat :=
  let e := fl64exp s n
  if 0 ≤ 52 - e then rneDiv (s * 2 ^ (52 - e).toNat) n
  else rneDiv s (n * 2 ^ (e - 52).toNat)

/-- The exact rational value `m · 2 ^ (e − 52)` of the binary64 double
nearest `s / n` — CPython's `int / int` true division is correctly
rounded, so this is the float the source divides to.  Overflow to infinity
is not modelled (irrelevant below `2 ^ 1024`; rating means lie in
`[0, 5]`). -/
def fl64val (s n : Nat) : ℚ :=
  if n = 0 then 0
  else if s = 0 then 0
  else (fl64sig s n : ℚ) * 2 ^ (fl64exp s n - 52)

/-- `round(float(s) / float(n), 1)` in tenths, computed on integers: the
double nearest `s / n`, rounded to one decimal digit, ties to even.  The
exact value of a double is dyadic while a decimal tie `x.y5` is not, so
ties never arise in this second rounding and any tie rule agrees with
CPython's correctly rounded `round`. -/
def floatDivTenths (s n : Nat) : Nat :=
  if n = 0 then 0
  else if s = 0 then 0
  else
    let e := fl64exp s n
    let m := fl64sig s n
    if 0 ≤ 52 - e then rneDiv (10 * m) (2 ^ (52 - e).toNat)
    else 10 * m * 2 ^ (e - 52).toNat

/-- `Listing.average_rating` (models.py lines 68-75):
`round(sum(r.rating for r in reviews) / len(reviews), 1)` — the division
is Python float (binary64) division of the integer sum by the integer
count; the result is represented by the one-decimal value the rounded
float prints as (distinct one-decimal values in range are distinct
doubles, so this representation is exact). -/
def Listing.average_rating (s : Store) (l : Listing) : ℚ :=
  let reviews := s.listingReviews l
  if reviews ≠ [] then
    (floatDivTenths ((reviews.map (fun r => r.rating)).sum) reviews.length : ℚ) / 10
  else 0

/-- `Listing.review_count` (models.py lines 77-80). -/
def Listing.review_count (s : Store) (l : Listing) : Nat :=
  (s.listingReviews l).length

/-- The arithmetic mean of a list of reviews' ratings (spec wording). -/
def meanRating (rs : List Review) : ℚ :=
  ((rs.map (fun r => (r.rating : ℚ))).sum) / (rs.length : ℚ)

/-- Twenty reviews of listing 1 by twenty distinct users: thirteen ratings
of 4 and seven of 5, summing to 87. -/
def twentyReviews : List Review :=
  [⟨1, 1, 4, "c"⟩, ⟨1, 2, 4, "c"⟩, ⟨1, 3, 4, "c"⟩, ⟨1, 4, 4, "c"⟩,
   ⟨1, 5, 4, "c"⟩, ⟨1, 6, 4, "c"⟩, ⟨1, 7, 4, "c"⟩, ⟨1, 8, 4, "c"⟩,
   ⟨1, 9, 4, "c"⟩, ⟨1, 10, 4, "c"⟩, ⟨1, 11, 4, "c"⟩, ⟨1, 12, 4, "c"⟩,
   ⟨1, 13, 4, "c"⟩, ⟨1, 14, 5, "c"⟩, ⟨1, 15, 5, "c"⟩, ⟨1, 16, 5, "c"⟩,
   ⟨1, 17, 5, "c"⟩, ⟨1, 18, 5, "c"⟩, ⟨1, 19, 5, "c"⟩, ⟨1, 20, 5, "c"⟩]

/-- A store holding exactly the listing `twentyReviewListing` and the
twenty reviews above. -/
def twentyReviewStore : Store :=
  ⟨[], [⟨1, 99, 10000, 4, true⟩], [], twentyReviews⟩

/-- The listing carrying the twenty reviews. -/
def twentyReviewListing : Listing :=
  ⟨1, 99, 10000, 4, true⟩

/-! ## The seed management command (management/commands/seed.py) -/

/-- ASCII lower-casing of a character (Python `str.lower` on the ASCII
names used by the seeder). -/
def lowerChar (c : Char) : Char :=
  if 65 ≤ c.toNat ∧ c.toNat ≤ 90 then Char.ofNat (c.toNat + 32) else c

/-- Python `str.lower` on an ASCII string. -/
def pyLower (s : String) : String :=
  ⟨s.data.map lowerChar⟩

/-- `first_names` list of `Command.create_users` (seed.py lines 86-89). -/
def first_names : List String :=
  ["John", "Jane", "Michael", "Sarah", "David", "Emma", "Chris",
   "Lisa", "Robert", "Maria", "James", "Anna", "William", "Emily"]

/-- `last_names` list of `Command.create_users` (seed.py lines 90-93). -/
def last_names : List String :=
  ["Smith", "Johnson", "Williams", "Brown", "Jones", "Garcia",
   "Miller", "Davis", "Rodriguez", "Martinez", "Hernandez", "Lopez"]

/-- The username generated at loop index `i` of `create_users`
(seed.py line 98), given the oracle for the two `random.choice` draws. -/
def genUsername (namePick : Nat → Fin 14 × Fin 12) (i : Nat) : String :=
  pyLower (first_names.getD (namePick i).1.val "") ++
    pyLower (last_names.getD (namePick i).2.val "") ++ toString (i + 1)

/-- Loop body of `Command.create_users` (seed.py lines 95-111):
`get_or_create` keyed on the generated username; a fresh user is created as
a plain (non-superuser) account.  `i` is the loop index, the second
argument the remaining iteration count, then accumulated users, store and
the fresh-id counter. -/
def create_users_go (namePick : Nat → Fin 14 × Fin 12) :
    Nat → Nat → List User → Store → Nat → List User × Store × Nat
  | _, 0, acc, s, nid => (acc, s, nid)
  | i, k + 1, acc, s, nid =>
    let username := genUsername namePick i
    match s.users.find? (fun u => u.username == username) with
    | some u => create_users_go namePick (i + 1) k (acc ++ [u]) s nid
    | none =>
      let u : User := ⟨nid, username, false⟩
      create_users_go namePick (i + 1) k (acc ++ [u])
        { s with users := s.users ++ [u] } (nid + 1)

/-- `Command.create_users` (seed.py lines 83-111). -/
def create_users (namePick : Nat → Fin 14 × Fin 12) (count : Nat)
    (s : Store) (nid : Nat) : List User × Store × Nat :=
  create_users_go namePick 0 count [] s nid

/-- Random draws consumed by one iteration of `create_listings`:
host `random.choice(users)`, `randint(50, 400)` price,
`randint(1, 8)` max guests, and the availability `random.choice` over a
four-element list. -/
structure ListingDraw where
  hostIdx : Nat
  priceR : Nat
  maxGuestsR : Nat
  availIdx : Fin 4
  deriving Repr, DecidableEq

/-- The five `price_per_night` values of `sample_data` (seed.py lines
117-158), in cents. -/
def sample_prices : List Int :=
  [12000, 35000, 20000, 18000, 16000]

/-- `[True, True, True, False]` availability choices (seed.py line 197). -/
def availability_choices : List Bool :=
  [true, true, true, false]

/-- Loop body of `Command.create_listings` (seed.py lines 169-199): the
first five iterations take their price from `sample_data`, later ones from
`randint(50, 400)`; every iteration persists exactly one listing.
`none` models the `random.choice` exception on an empty user list. -/
def create_listings_go (users : List User) (draw : Nat → ListingDraw) :
    Nat → Nat → List Listing → Store → Nat → Option (List Listing × Store × Nat)
  | _, 0, acc, s, nid => some (acc, s, nid)
  | i, k + 1, acc, s, nid =>
    let d := draw i
    match users.get? (d.hostIdx % users.length) with
    | none => none
    | some host =>
      let price : Int := if i < 5 then sample_prices.getD i 0 else (((50 + d.priceR % 351) * 100 : Nat) : Int)
      let l : Listing :=
        ⟨nid, host.userId, price, 1 + d.maxGuestsR % 8,
          availability_choices.getD d.availIdx.val true⟩
      create_listings_go users draw (i + 1) k (acc ++ [l])
        { s with listings := s.listings ++ [l] } (nid + 1)

/-- `Command.create_listings` (seed.py lines 113-201). -/
def create_listings (users : List User) (draw : Nat → ListingDraw)
    (count : Nat) (s : Store) (nid : Nat) : Option (List Listing × Store × Nat) :=
  create_listings_go users draw 0 count [] s nid

/-- Random draws consumed by one iteration of `create_bookings`. -/
structure BookingDraw where
  listIdx : Nat
  userIdx : Nat
  startOff : Nat
  durR : Nat
  guestsR : Nat
  statusIdx : Fin 4
  deriving Repr, DecidableEq

/-- The booking status choices of `create_bookings` (seed.py line 206). -/
def booking_statuses : List String :=
  ["pending", "confirmed", "cancelled", "completed"]

/-- Loop body of `Command.create_bookings` (seed.py lines 208-229): pick a
listing, a user other than its host, random dates with
`start = today + randint(-30, 60)` and `duration = randint(1, 14)`,
`guests = randint(1, min(max_guests, 6))`, price `price_per_night * duration`,
then `Booking.objects.create` (which runs `Booking.save`, hence
`full_clean`).  `none` models an uncaught exception (empty choice list or a
`ValidationError` from `save`). -/
def create_bookings_go (users : List User) (listings : List Listing)
    (draw : Nat → BookingDraw) (today : Int) :
    Nat → Nat → List Booking → Store → Option (List Booking × Store)
  | _, 0, acc, s => some (acc, s)
  | i, k + 1, acc, s =>
    let d := draw i
    match listings.get? (d.listIdx % listings.length) with
    | none => none
    | some property_obj =>
      let eligible := users.filter (fun u => u.userId != property_obj.host)
      match eligible.get? (d.userIdx % eligible.length) with
      | none => none
      | some user =>
        let start_date : Int := today + (-30 + ((d.startOff % 91 : Nat) : Int))
        let duration : Nat := 1 + d.durR % 14
        let end_date : Int := start_date + (duration : Int)
        let guests : Nat := 1 + d.guestsR % (min property_obj.max_guests 6)
        let total_price : Int := property_obj.price_per_night * (duration : Int)
        let b : Booking :=
          ⟨property_obj.listing_id, user.userId, start_date, end_date, guests,
            total_price, booking_statuses.getD d.statusIdx.val "pending"⟩
        match Booking.save s b with
        | .error _ => none
        | .ok s' => create_bookings_go users listings draw today (i + 1) k (acc ++ [b]) s'

/-- `Command.create_bookings` (seed.py lines 203-231). -/
def create_bookings (users : List User) (listings : List Listing)
    (draw : Nat → BookingDraw) (today : Int) (count : Nat) (s : Store) :
    Option (List Booking × Store) :=
  create_bookings_go users listings draw today 0 count [] s

/-- The ten review comments of `create_reviews` (seed.py lines 237-248);
their exact text never matters, only that a comment is one of them. -/
def sample_comments : List String :=
  ["comment one", "comment two", "comment three", "comment four",
   "comment five", "comment six", "comment seven", "comment eight",
   "comment nine", "comment ten"]

/-- `random.choices([1, 2, 3, 4, 5], ...)` population (seed.py lines 269-272). -/
def ratings_choices : List Nat :=
  [1, 2, 3, 4, 5]

/-- The retry loop of `create_reviews` (seed.py lines 254-267): up to 50
draws of a (user, listing) pair; a pair is selected when the user is not
the listing's host and the pair has no review yet this run.  `none` covers
both exhaustion (the `while`/`else continue`) and the `random.choice`
exception on an empty list. -/
def selectPair (users : List User) (listings : List Listing)
    (combos : List (Nat × Nat)) (drawi : Nat → Nat × Nat) :
    Nat → Nat → Option (User × Listing)
  | _, 0 => none
  | attempts, fuel + 1 =>
    let ui := (drawi attempts).1
    let li := (drawi attempts).2
    match users.get? (ui % users.length), listings.get? (li % listings.length) with
    | some user, some property_obj =>
      if user.userId != property_obj.host then
        if (user.userId, property_obj.listing_id) ∈ combos then
          selectPair users listings combos drawi (attempts + 1) fuel
        else some (user, property_obj)
      else selectPair users listings combos drawi (attempts + 1) fuel
    | _, _ => none

/-- Loop body of `Command.create_reviews` (seed.py lines 252-281):
select a pair, draw a rating from `[1..5]` and a comment, persist through
the unique-(property, user) storage constraint. -/
def create_reviews_go (users : List User) (listings : List Listing)
    (draw : Nat → Nat → Nat × Nat) (ratingPick : Nat → Fin 5)
    (commentPick : Nat → Fin 10) :
    Nat → Nat → List (Nat × Nat) → List Review → Store → Option (List Review × Store)
  | _, 0, _, acc, s => some (acc, s)
  | i, k + 1, combos, acc, s =>
    match selectPair users listings combos (draw i) 0 50 with
    | none => create_reviews_go users listings draw ratingPick commentPick (i + 1) k combos acc s
    | some (user, property_obj) =>
      let combos' := (user.userId, property_obj.listing_id) :: combos
      let r : Review :=
        ⟨property_obj.listing_id, user.userId,
          ratings_choices.getD (ratingPick i).val 1,
          sample_comments.getD (commentPick i).val ""⟩
      match Store.reviewCreate s r with
      | none => none
      | some s' => create_reviews_go users listings draw ratingPick commentPick (i + 1) k combos' (acc ++ [r]) s'

/-- `Command.create_reviews` (seed.py lines 233-282). -/
def create_reviews (users : List User) (listings : List Listing)
    (draw : Nat → Nat → Nat × Nat) (ratingPick : Nat → Fin 5)
    (commentPick : Nat → Fin 10) (count : Nat) (s : Store) :
    Option (List Review × Store) :=
  create_reviews_go users listings draw ratingPick commentPick 0 count [] [] s

/-- Command-line options of the seed command (seed.py lines 12-41). -/
structure SeedOptions where
  listings : Nat
  users : Nat
  bookings : Nat
  reviews : Nat
  clear : Bool
  deriving Repr, DecidableEq

/-- All random draws one run of the seed command can consume. -/
structure SeedRandom where
  namePick : Nat → Fin 14 × Fin 12
  listingDraw : Nat → ListingDraw
  bookingDraw : Nat → BookingDraw
  reviewDraw : Nat → Nat → Nat × Nat
  ratingPick : Nat → Fin 5
  commentPick : Nat → Fin 10

/-- The `--clear` branch of `Command.handle` (seed.py lines 44-51):
delete all reviews, bookings and listings, then all non-superuser users. -/
def Store.clearData (s : Store) : Store :=
  { users := s.users.filter (fun u => u.is_superuser),
    listings := [], bookings := [], reviews := [] }

/-- `Command.handle` (seed.py lines 43-81): optional clear, then users,
listings, bookings, reviews in order; `none` models an uncaught exception. -/
def Command.handle (opts : SeedOptions) (rng : SeedRandom) (today : Int)
    (s : Store) (nid : Nat) : Option Store :=
  let s0 := if opts.clear then Store.clearData s else s
  match create_users rng.namePick opts.users s0 nid with
  | (users, s1, nid1) =>
    match create_listings users rng.listingDraw opts.listings s1 nid1 with
    | none => none
    | some (listings, s2, _) =>
      match create_bookings users listings rng.bookingDraw today opts.bookings s2 with
      | none => none
      | some (_, s3) =>
        match create_reviews users listings rng.reviewDraw rng.ratingPick rng.commentPick opts.reviews s3 with
        | none => none
        | some (_, s4) => some s4

/-! ## Store invariants -/

/-- Every stored booking has `check_in < check_out`. -/
def datesOK (s : Store) : Bool :=
  s.bookings.all (fun b => decide (b.check_in < b.check_out))

/-- Every stored review has a rating in `[1, 5]`. -/
def ratingsOK (s : Store) : Bool :=
  s.reviews.all (fun r => decide (1 ≤ r.rating ∧ r.rating ≤ 5))

/-- No two stored reviews share the same (property, user) pair. -/
def ReviewUniq (s : Store) : Prop :=
  (s.reviews.map (fun r => (r.property, r.user))).Nodup

instance (s : Store) : Decidable (ReviewUniq s) := by
  unfold ReviewUniq
  exact List.nodupDecidable _

/-! ## Characterization lemmas -/

/-- `full_clean` succeeds exactly when all model-level rules hold. -/
theorem Booking.full_clean_ok_iff {b : Booking} {prop : Listing} :
    Booking.full_clean b prop = Except.ok () ↔
      1 ≤ b.guests ∧ 1 ≤ b.total_price ∧ b.check_in < b.check_out ∧
        b.guests ≤ prop.max_guests := by
  unfold Booking.full_clean Booking.clean
  split_ifs with h1 h2 h3 h4 <;> simp <;> omega

/-- `Booking.save` succeeds exactly when the listing resolves, all rules of
`full_clean` hold, and then appends exactly the one new booking. -/
theorem Booking.save_ok_iff {s : Store} {b : Booking} {s' : Store} :
    Booking.save s b = Except.ok s' ↔
      ∃ prop, s.findListing b.property = some prop ∧ 1 ≤ b.guests ∧
        1 ≤ b.total_price ∧ b.check_in < b.check_out ∧ b.guests ≤ prop.max_guests ∧
        s' = { s with bookings := s.bookings ++ [b] } := by
  unfold Booking.save
  cases h : s.findListing b.property with
  | none => simp
  | some prop =>
    cases hfc : Booking.full_clean b prop with
    | error e =>
      simp only [hfc]
      constructor
      · intro hh; cases hh
      · rintro ⟨p, hp, h1, h2, h3, h4, rfl⟩
        injection hp with hp
        subst hp
        have hok : Booking.full_clean b prop = Except.ok () :=
          Booking.full_clean_ok_iff.mpr ⟨h1, h2, h3, h4⟩
        rw [hfc] at hok
        cases hok
    | ok u =>
      cases u
      simp only [hfc]
      have hc := Booking.full_clean_ok_iff.mp hfc
      constructor
      · intro hh
        injection hh with hh
        exact ⟨prop, rfl, hc.1, hc.2.1, hc.2.2.1, hc.2.2.2, hh.symm⟩
      · rintro ⟨p, hp, -, -, -, -, rfl⟩
        rfl

/-- The storage insert of a review succeeds exactly when no review with the
same (property, user) pair exists, and then appends exactly that review. -/
theorem Store.reviewCreate_some_iff {s : Store} {r : Review} {s' : Store} :
    Store.reviewCreate s r = some s' ↔
      (∀ r0 ∈ s.reviews, ¬(r0.property = r.property ∧ r0.user = r.user)) ∧
        s' = { s with reviews := s.reviews ++ [r] } := by
  unfold Store.reviewCreate
  split_ifs with h
  · simp only [List.any_eq_true, Bool.and_eq_true, beq_iff_eq] at h
    obtain ⟨r0, hr0, hp, hu⟩ := h
    constructor
    · intro hh; cases hh
    · rintro ⟨hall, rfl⟩
      exact absurd ⟨hp, hu⟩ (hall r0 hr0)
  · simp only [List.any_eq_true, Bool.and_eq_true, beq_iff_eq] at h
    push_neg at h
    constructor
    · intro hh
      injection hh with hh
      exact ⟨fun r0 hr0 hc => h r0 hr0 hc.1 hc.2, hh.symm⟩
    · rintro ⟨-, rfl⟩
      rfl

/-- `BookingSerializer.validate` on a resolved listing succeeds exactly when
dates are ordered, the guest count fits and the listing is available. -/
theorem BookingSerializer.validate_some_ok_iff {l : Listing} {ci co : Int} {g : Nat} :
    BookingSerializer.validate (some l) ci co g = Except.ok () ↔
      ci < co ∧ g ≤ l.max_guests ∧ l.availability = true := by
  dsimp only [BookingSerializer.validate]
  split_ifs with h1 h2 h3
  · constructor
    · intro hh; cases hh
    · rintro ⟨hc, -, -⟩; omega
  · constructor
    · intro hh; cases hh
    · rintro ⟨-, hg, -⟩; omega
  · constructor
    · intro hh; cases hh
    · rintro ⟨-, -, hav⟩; rw [hav] at h3; cases h3
  · constructor
    · intro _
      refine ⟨by omega, by omega, ?_⟩
      cases hb : l.availability
      · exact absurd hb h3
      · rfl
    · intro _; rfl

/-- The `BookingSerializer` create pipeline succeeds exactly when every
serializer- and model-level rule holds, and then appends exactly the one
new booking. -/
theorem bookingSerializerCreate_ok_iff {s : Store} {inp : BookingInput} {s' : Store} :
    bookingSerializerCreate s inp = Except.ok s' ↔
      ∃ l, s.findListing inp.property_id = some l ∧ 1 ≤ inp.guests ∧
        1 ≤ inp.total_price ∧ inp.check_in < inp.check_out ∧
        inp.guests ≤ l.max_guests ∧ l.availability = true ∧
        s' = { s with bookings := s.bookings ++ [mkBooking inp] } := by
  unfold bookingSerializerCreate
  cases hg : validate_guests inp.guests with
  | error e =>
    simp only [Except.bind]
    unfold validate_guests at hg
    split_ifs at hg with h1
    constructor
    · intro hh; cases hh
    · rintro ⟨l, -, hge, -⟩; omega
  | ok v =>
    have hg1 : 1 ≤ inp.guests := by
      unfold validate_guests at hg
      split_ifs at hg with h1
      omega
    simp only [Except.bind]
    cases ht : validate_total_price inp.total_price with
    | error e =>
      unfold validate_total_price at ht
      split_ifs at ht with h1
      constructor
      · intro hh; cases hh
      · rintro ⟨l, -, -, hte, -⟩; omega
    | ok v2 =>
      have ht1 : 1 ≤ inp.total_price := by
        unfold validate_total_price at ht
        split_ifs at ht with h1
        omega
      dsimp only
      cases hfind : s.findListing inp.property_id with
      | none =>
        cases hv : BookingSerializer.validate none inp.check_in inp.check_out inp.guests with
        | error e =>
          dsimp only
          constructor
          · intro hh; cases hh
          · rintro ⟨l, hl, -⟩; cases hl
        | ok u =>
          cases u
          dsimp only
          constructor
          · intro hh
            obtain ⟨p, hp, -⟩ := Booking.save_ok_iff.mp hh
            rw [show (mkBooking inp).property = inp.property_id from rfl] at hp
            rw [hfind] at hp
            cases hp
          · rintro ⟨l, hl, -⟩; cases hl
      | some l0 =>
        cases hv : BookingSerializer.validate (some l0) inp.check_in inp.check_out inp.guests with
        | error e =>
          dsimp only
          constructor
          · intro hh; cases hh
          · rintro ⟨l, hl, -, -, hd, hgm, hav, -⟩
            injection hl with hl
            subst hl
            have hvo := BookingSerializer.validate_some_ok_iff.mpr ⟨hd, hgm, hav⟩
            rw [hv] at hvo
            cases hvo
        | ok u =>
          cases u
          dsimp only
          obtain ⟨hd, hgm, hav⟩ := BookingSerializer.validate_some_ok_iff.mp hv
          constructor
          · intro hh
            obtain ⟨p, hp, -, ht', hd', hgm', hs⟩ := Booking.save_ok_iff.mp hh
            rw [show (mkBooking inp).property = inp.property_id from rfl] at hp
            rw [hfind] at hp
            injection hp with hp
            subst hp
            exact ⟨l0, rfl, hg1, ht1, hd, hgm, hav, hs⟩
          · rintro ⟨l, hl, -, -, -, -, -, rfl⟩
            injection hl with hl
            subst hl
            exact Booking.save_ok_iff.mpr
              ⟨_, hfind, hg1, ht1, hd, hgm, rfl⟩

/-- The `ReviewSerializer` create pipeline succeeds exactly when the rating
is in `[1, 5]` and no review by the same user on the same listing exists,
and then appends exactly the one new review. -/
theorem reviewSerializerCreate_ok_iff {s : Store} {inp : ReviewInput} {s' : Store} :
    reviewSerializerCreate s inp = Except.ok s' ↔
      (1 ≤ inp.rating ∧ inp.rating ≤ 5) ∧
        (∀ r0 ∈ s.reviews, ¬(r0.property = inp.property_id ∧ r0.user = inp.user_id)) ∧
        s' = { s with reviews := s.reviews ++
          [⟨inp.property_id, inp.user_id, inp.rating, inp.comment⟩] } := by
  unfold reviewSerializerCreate validate_rating
  by_cases hr : 1 ≤ inp.rating ∧ inp.rating ≤ 5
  · rw [if_neg (not_not_intro hr)]
    simp only [Except.bind]
    cases hc : Store.reviewCreate s ⟨inp.property_id, inp.user_id, inp.rating, inp.comment⟩ with
    | none =>
      constructor
      · intro hh; cases hh
      · rintro ⟨-, hall, rfl⟩
        have hs := (@Store.reviewCreate_some_iff s
            ⟨inp.property_id, inp.user_id, inp.rating, inp.comment⟩
            { s with reviews := s.reviews ++
              [⟨inp.property_id, inp.user_id, inp.rating, inp.comment⟩] }).mpr
          ⟨hall, rfl⟩
        rw [hc] at hs
        cases hs
    | some s2 =>
      have hi := Store.reviewCreate_some_iff.mp hc
      constructor
      · intro hh
        injection hh with hh
        subst hh
        exact ⟨hr, hi.1, hi.2⟩
      · rintro ⟨-, -, rfl⟩
        rw [hi.2]
  · rw [if_pos hr]
    simp only [Except.bind]
    constructor
    · intro hh; cases hh
    · rintro ⟨hb, -⟩; exact absurd hb hr

/-- Review inserts at the storage boundary preserve per-(property, user)
uniqueness. -/
theorem reviewCreate_preserves_uniq {s : Store} {r : Review} {s' : Store}
    (hu : ReviewUniq s) (h : Store.reviewCreate s r = some s') : ReviewUniq s' := by
  obtain ⟨hall, rfl⟩ := Store.reviewCreate_some_iff.mp h
  unfold ReviewUniq at hu ⊢
  dsimp only
  rw [List.map_append, List.nodup_append]
  refine ⟨hu, List.nodup_singleton _, ?_⟩
  intro x hx hx2
  simp only [List.map_cons, List.map_nil, List.mem_singleton] at hx2
  subst hx2
  obtain ⟨r0, hr0, hpair⟩ := List.mem_map.mp hx
  have hp : r0.property = r.property := congrArg Prod.fst hpair
  have hu2 : r0.user = r.user := congrArg Prod.snd hpair
  exact hall r0 hr0 ⟨hp, hu2⟩

/-! ## Claim theorems -/

/-- C1 (amended): a booking-creation request through `BookingSerializer`
(the serializer wired to the API view) whose listing has
`availability = false` is never accepted. -/
theorem c1_booking_unavailable_rejected (s : Store) (inp : BookingInput) (l : Listing)
    (hfind : s.findListing inp.property_id = some l) (hav : l.availability = false)
    (s' : Store) : bookingSerializerCreate s inp ≠ Except.ok s' := by
  intro h
  obtain ⟨l0, hl0, -, -, -, -, hav0, -⟩ := bookingSerializerCreate_ok_iff.mp h
  rw [hfind] at hl0
  injection hl0 with hl0
  subst hl0
  rw [hav] at hav0
  cases hav0

/-- C1 witness: a concrete unavailable listing is rejected through
`BookingSerializer`. -/
theorem c1_booking_unavailable_rejected_witness :
    bookingSerializerCreate ⟨[⟨7, "h", false⟩], [⟨1, 7, 10000, 4, false⟩], [], []⟩
        ⟨1, 9, 0, 2, 1, 20000, "pending"⟩ ≠
      Except.ok ⟨[⟨7, "h", false⟩], [⟨1, 7, 10000, 4, false⟩], [], []⟩ :=
  c1_booking_unavailable_rejected
    ⟨[⟨7, "h", false⟩], [⟨1, 7, 10000, 4, false⟩], [], []⟩
    ⟨1, 9, 0, 2, 1, 20000, "pending"⟩ ⟨1, 7, 10000, 4, false⟩
    (by decide) (by decide)
    ⟨[⟨7, "h", false⟩], [⟨1, 7, 10000, 4, false⟩], [], []⟩

/-- C1 counterexample: the very same unavailable listing IS accepted (one
booking persisted) when creation goes through `BookingCreateSerializer`,
which performs no availability check; so not every booking-creation request
against an unavailable listing is rejected. -/
theorem c1_counterexample :
    (bookingCreateSerializerCreate ⟨[⟨7, "h", false⟩], [⟨1, 7, 10000, 4, false⟩], [], []⟩ 9
        ⟨1, 0, 2, 1⟩).map (fun s => s.bookings.length) = Except.ok 1 ∧
      (Store.findListing ⟨[⟨7, "h", false⟩], [⟨1, 7, 10000, 4, false⟩], [], []⟩ 1).map
        Listing.availability = some false :=
  ⟨by decide, by decide⟩

/-- C3: a booking created through `BookingCreateSerializer` (the only
creation path where no total price is supplied) stores
`total_price = price_per_night * (check_out - check_in)`, and its
`duration_days` equals `check_out - check_in`. -/
theorem c3_total_price_derived (s : Store) (u : Nat) (inp : BookingCreateInput)
    (l : Listing) (s' : Store)
    (hfind : s.findListing inp.property_id = some l)
    (h : bookingCreateSerializerCreate s u inp = Except.ok s') :
    s'.bookings = s.bookings ++
      [⟨inp.property_id, u, inp.check_in, inp.check_out, inp.guests,
        l.price_per_night * (inp.check_out - inp.check_in), "pending"⟩] ∧
    Booking.duration_days ⟨inp.property_id, u, inp.check_in, inp.check_out, inp.guests,
        l.price_per_night * (inp.check_out - inp.check_in), "pending"⟩ =
      inp.check_out - inp.check_in := by
  unfold bookingCreateSerializerCreate at h
  rw [hfind] at h
  dsimp only at h
  obtain ⟨p, hp, -, -, -, -, hs⟩ := Booking.save_ok_iff.mp h
  constructor
  · rw [hs]
  · rfl

/-- C3 witness: listing at 100.00/night (10000 cents), check-in 2024-01-01
(ordinal 738886), check-out 2024-01-04 (ordinal 738889): derived
`total_price` is 300.00 (30000 cents) and `duration_days` is 3. -/
theorem c3_total_price_derived_witness :
    (⟨[⟨7, "h", false⟩], [⟨1, 7, 10000, 4, true⟩],
        [⟨1, 9, 738886, 738889, 2, 30000, "pending"⟩], []⟩ : Store).bookings =
      ([] : List Booking) ++ [⟨1, 9, 738886, 738889, 2, 30000, "pending"⟩] ∧
    Booking.duration_days ⟨1, 9, 738886, 738889, 2, 30000, "pending"⟩ = 3 :=
  c3_total_price_derived
    ⟨[⟨7, "h", false⟩], [⟨1, 7, 10000, 4, true⟩], [], []⟩ 9
    ⟨1, 738886, 738889, 2⟩ ⟨1, 7, 10000, 4, true⟩
    ⟨[⟨7, "h", false⟩], [⟨1, 7, 10000, 4, true⟩],
      [⟨1, 9, 738886, 738889, 2, 30000, "pending"⟩], []⟩
    (by decide) (by decide)

/-- C4: every booking write (all of which funnel through `Booking.save`)
preserves the `check_in < check_out` invariant, and a save or a
`BookingSerializer` creation with `check_out ≤ check_in` is never
accepted. -/
theorem c4_dates (s : Store) (b : Booking) (inp : BookingInput) :
    (datesOK s = true → ∀ s', Booking.save s b = Except.ok s' → datesOK s' = true) ∧
    (b.check_out ≤ b.check_in → ∀ s', Booking.save s b ≠ Except.ok s') ∧
    (inp.check_out ≤ inp.check_in → ∀ s', bookingSerializerCreate s inp ≠ Except.ok s') := by
  refine ⟨?_, ?_, ?_⟩
  · intro hOK s' hs
    obtain ⟨p, -, -, -, hd, -, rfl⟩ := Booking.save_ok_iff.mp hs
    unfold datesOK at hOK ⊢
    dsimp only
    simp only [List.all_append, List.all_cons, List.all_nil, Bool.and_true, Bool.and_eq_true]
    exact ⟨hOK, decide_eq_true hd⟩
  · intro hle s' hs
    obtain ⟨p, -, -, -, hd, -, -⟩ := Booking.save_ok_iff.mp hs
    omega
  · intro hle s' hs
    obtain ⟨l, -, -, -, hd, -, -, -⟩ := bookingSerializerCreate_ok_iff.mp hs
    omega

/-- C4 witness: concrete preservation and concrete rejections of an
equal-dates booking. -/
theorem c4_dates_witness :
    datesOK ⟨[⟨7, "h", false⟩, ⟨9, "g", false⟩], [⟨1, 7, 10000, 4, true⟩],
        [⟨1, 9, 0, 2, 2, 20000, "pending"⟩], []⟩ = true ∧
    Booking.save ⟨[⟨7, "h", false⟩, ⟨9, "g", false⟩], [⟨1, 7, 10000, 4, true⟩], [], []⟩
        ⟨1, 9, 5, 5, 2, 20000, "pending"⟩ ≠
      Except.ok ⟨[⟨7, "h", false⟩, ⟨9, "g", false⟩], [⟨1, 7, 10000, 4, true⟩], [], []⟩ ∧
    bookingSerializerCreate ⟨[⟨7, "h", false⟩, ⟨9, "g", false⟩], [⟨1, 7, 10000, 4, true⟩], [], []⟩
        ⟨1, 9, 5, 5, 2, 20000, "pending"⟩ ≠
      Except.ok ⟨[⟨7, "h", false⟩, ⟨9, "g", false⟩], [⟨1, 7, 10000, 4, true⟩], [], []⟩ :=
  ⟨(c4_dates ⟨[⟨7, "h", false⟩, ⟨9, "g", false⟩], [⟨1, 7, 10000, 4, true⟩], [], []⟩
      ⟨1, 9, 0, 2, 2, 20000, "pending"⟩ ⟨1, 9, 0, 2, 2, 20000, "pending"⟩).1 (by decide)
      ⟨[⟨7, "h", false⟩, ⟨9, "g", false⟩], [⟨1, 7, 10000, 4, true⟩],
        [⟨1, 9, 0, 2, 2, 20000, "pending"⟩], []⟩ (by decide),
    (c4_dates ⟨[⟨7, "h", false⟩, ⟨9, "g", false⟩], [⟨1, 7, 10000, 4, true⟩], [], []⟩
      ⟨1, 9, 5, 5, 2, 20000, "pending"⟩ ⟨1, 9, 5, 5, 2, 20000, "pending"⟩).2.1 (by decide)
      ⟨[⟨7, "h", false⟩, ⟨9, "g", false⟩], [⟨1, 7, 10000, 4, true⟩], [], []⟩,
    (c4_dates ⟨[⟨7, "h", false⟩, ⟨9, "g", false⟩], [⟨1, 7, 10000, 4, true⟩], [], []⟩
      ⟨1, 9, 5, 5, 2, 20000, "pending"⟩ ⟨1, 9, 5, 5, 2, 20000, "pending"⟩).2.2 (by decide)
      ⟨[⟨7, "h", false⟩, ⟨9, "g", false⟩], [⟨1, 7, 10000, 4, true⟩], [], []⟩⟩

/-- C6: a review rating of 0 or 6 is never accepted, `validate_rating`
accepts exactly the ratings in `[1, 5]`, and review creation preserves the
ratings invariant over stored reviews. -/
theorem c6_rating (s : Store) (inp : ReviewInput) :
    (inp.rating = 0 ∨ inp.rating = 6 → ∀ s', reviewSerializerCreate s inp ≠ Except.ok s') ∧
    (validate_rating inp.rating = Except.ok inp.rating ↔
      1 ≤ inp.rating ∧ inp.rating ≤ 5) ∧
    (ratingsOK s = true → ∀ s', reviewSerializerCreate s inp = Except.ok s' →
      ratingsOK s' = true) := by
  refine ⟨?_, ?_, ?_⟩
  · intro h0 s' hs
    obtain ⟨⟨h1, h5⟩, -, -⟩ := reviewSerializerCreate_ok_iff.mp hs
    cases h0 <;> omega
  · unfold validate_rating
    by_cases h : 1 ≤ inp.rating ∧ inp.rating ≤ 5
    · rw [if_neg (not_not_intro h)]
      simp [h]
    · rw [if_pos h]
      constructor
      · intro hh; cases hh
      · intro hb; exact absurd hb h
  · intro hOK s' hs
    obtain ⟨⟨h1, h5⟩, -, rfl⟩ := reviewSerializerCreate_ok_iff.mp hs
    unfold ratingsOK at hOK ⊢
    dsimp only
    simp only [List.all_append, List.all_cons, List.all_nil, Bool.and_true, Bool.and_eq_true]
    exact ⟨hOK, decide_eq_true ⟨h1, h5⟩⟩

/-- C6 witness: rating 0 and rating 6 concretely rejected, rating 5
accepted with the invariant intact. -/
theorem c6_rating_witness :
    reviewSerializerCreate ⟨[⟨5, "h", false⟩, ⟨2, "g", false⟩], [⟨1, 5, 10000, 2, true⟩], [], []⟩
        ⟨1, 2, 0, "bad"⟩ ≠
      Except.ok ⟨[⟨5, "h", false⟩, ⟨2, "g", false⟩], [⟨1, 5, 10000, 2, true⟩], [], []⟩ ∧
    reviewSerializerCreate ⟨[⟨5, "h", false⟩, ⟨2, "g", false⟩], [⟨1, 5, 10000, 2, true⟩], [], []⟩
        ⟨1, 2, 6, "bad"⟩ ≠
      Except.ok ⟨[⟨5, "h", false⟩, ⟨2, "g", false⟩], [⟨1, 5, 10000, 2, true⟩], [], []⟩ ∧
    ratingsOK ⟨[⟨5, "h", false⟩, ⟨2, "g", false⟩], [⟨1, 5, 10000, 2, true⟩], [],
        [⟨1, 2, 5, "nice"⟩]⟩ = true :=
  ⟨(c6_rating ⟨[⟨5, "h", false⟩, ⟨2, "g", false⟩], [⟨1, 5, 10000, 2, true⟩], [], []⟩
      ⟨1, 2, 0, "bad"⟩).1 (Or.inl rfl)
      ⟨[⟨5, "h", false⟩, ⟨2, "g", false⟩], [⟨1, 5, 10000, 2, true⟩], [], []⟩,
    (c6_rating ⟨[⟨5, "h", false⟩, ⟨2, "g", false⟩], [⟨1, 5, 10000, 2, true⟩], [], []⟩
      ⟨1, 2, 6, "bad"⟩).1 (Or.inr rfl)
      ⟨[⟨5, "h", false⟩, ⟨2, "g", false⟩], [⟨1, 5, 10000, 2, true⟩], [], []⟩,
    (c6_rating ⟨[⟨5, "h", false⟩, ⟨2, "g", false⟩], [⟨1, 5, 10000, 2, true⟩], [], []⟩
      ⟨1, 2, 5, "nice"⟩).2.2 (by decide)
      ⟨[⟨5, "h", false⟩, ⟨2, "g", false⟩], [⟨1, 5, 10000, 2, true⟩], [],
        [⟨1, 2, 5, "nice"⟩]⟩ (by decide)⟩

/-- C7: review writes (storage insert and the serializer pipeline) preserve
at-most-one-review-per-(property, user), and a second attempt by the same
user on the same listing is never accepted. -/
theorem c7_review_unique (s : Store) (r : Review) (inp : ReviewInput) :
    (ReviewUniq s → ∀ s', Store.reviewCreate s r = some s' → ReviewUniq s') ∧
    (ReviewUniq s → ∀ s', reviewSerializerCreate s inp = Except.ok s' → ReviewUniq s') ∧
    ((∃ r0 ∈ s.reviews, r0.property = inp.property_id ∧ r0.user = inp.user_id) →
      ∀ s', reviewSerializerCreate s inp ≠ Except.ok s') := by
  refine ⟨?_, ?_, ?_⟩
  · intro hu s' hs
    exact reviewCreate_preserves_uniq hu hs
  · intro hu s' hs
    obtain ⟨-, hall, rfl⟩ := reviewSerializerCreate_ok_iff.mp hs
    have hc : Store.reviewCreate s ⟨inp.property_id, inp.user_id, inp.rating, inp.comment⟩ =
        some { s with reviews := s.reviews ++
          [⟨inp.property_id, inp.user_id, inp.rating, inp.comment⟩] } :=
      (@Store.reviewCreate_some_iff s
        ⟨inp.property_id, inp.user_id, inp.rating, inp.comment⟩
        { s with reviews := s.reviews ++
          [⟨inp.property_id, inp.user_id, inp.rating, inp.comment⟩] }).mpr ⟨hall, rfl⟩
    exact reviewCreate_preserves_uniq hu hc
  · intro hdup s' hs
    obtain ⟨-, hall, -⟩ := reviewSerializerCreate_ok_iff.mp hs
    obtain ⟨r0, hr0, hp, hu⟩ := hdup
    exact hall r0 hr0 ⟨hp, hu⟩

/-- C7 witness: concrete uniqueness preservation and a concrete rejected
second review by the same user on the same listing. -/
theorem c7_review_unique_witness :
    ReviewUniq ⟨[⟨5, "h", false⟩, ⟨2, "g", false⟩], [⟨1, 5, 10000, 2, true⟩], [],
        [⟨1, 2, 5, "nice"⟩]⟩ ∧
    reviewSerializerCreate ⟨[⟨5, "h", false⟩, ⟨2, "g", false⟩], [⟨1, 5, 10000, 2, true⟩], [],
        [⟨1, 2, 5, "nice"⟩]⟩ ⟨1, 2, 4, "again"⟩ ≠
      Except.ok ⟨[⟨5, "h", false⟩, ⟨2, "g", false⟩], [⟨1, 5, 10000, 2, true⟩], [],
        [⟨1, 2, 5, "nice"⟩]⟩ :=
  ⟨(c7_review_unique ⟨[⟨5, "h", false⟩, ⟨2, "g", false⟩], [⟨1, 5, 10000, 2, true⟩], [], []⟩
      ⟨1, 2, 5, "nice"⟩ ⟨1, 2, 5, "nice"⟩).1 (by decide)
      ⟨[⟨5, "h", false⟩, ⟨2, "g", false⟩], [⟨1, 5, 10000, 2, true⟩], [],
        [⟨1, 2, 5, "nice"⟩]⟩ (by decide),
    (c7_review_unique ⟨[⟨5, "h", false⟩, ⟨2, "g", false⟩], [⟨1, 5, 10000, 2, true⟩], [],
        [⟨1, 2, 5, "nice"⟩]⟩ ⟨1, 2, 4, "again"⟩ ⟨1, 2, 4, "again"⟩).2.2
      ⟨⟨1, 2, 5, "nice"⟩, by decide, rfl, rfl⟩
      ⟨[⟨5, "h", false⟩, ⟨2, "g", false⟩], [⟨1, 5, 10000, 2, true⟩], [],
        [⟨1, 2, 5, "nice"⟩]⟩⟩

/-- Any rating drawn from `ratings_choices` lies in `[1, 5]`. -/
theorem ratings_choices_getD_bounds :
    ∀ v : Fin 5, 1 ≤ ratings_choices.getD v.val 1 ∧ ratings_choices.getD v.val 1 ≤ 5 := by
  decide

/-- A pair selected by the retry loop of `create_reviews` consists of a
stored user and a stored listing whose host is not that user. -/
theorem selectPair_some {users : List User} {listings : List Listing}
    {combos : List (Nat × Nat)} {drawi : Nat → Nat × Nat} :
    ∀ {fuel attempts : Nat} {u : User} {p : Listing},
      selectPair users listings combos drawi attempts fuel = some (u, p) →
      u ∈ users ∧ p ∈ listings ∧ u.userId ≠ p.host := by
  intro fuel
  induction fuel with
  | zero =>
    intro attempts u p h
    cases h
  | succ n ih =>
    intro attempts u p h
    unfold selectPair at h
    dsimp only at h
    cases hu : users.get? ((drawi attempts).1 % users.length) with
    | none =>
      rw [hu] at h
      dsimp only at h
      cases h
    | some user0 =>
      rw [hu] at h
      cases hl : listings.get? ((drawi attempts).2 % listings.length) with
      | none =>
        rw [hl] at h
        dsimp only at h
        cases h
      | some p0 =>
        rw [hl] at h
        dsimp only at h
        split_ifs at h with h1 h2
        · exact ih h
        · injection h with h
          have hu2 : user0 = u := congrArg Prod.fst h
          have hp2 : p0 = p := congrArg Prod.snd h
          subst hu2
          subst hp2
          refine ⟨List.get?_mem hu, List.get?_mem hl, ?_⟩
          simpa using h1
        · exact ih h

/-- Specification of the `create_reviews` loop: on success it appends to
both the accumulator and the store the same list of new reviews, each for a
stored listing, never authored by that listing's host, with a rating in
`[1, 5]`. -/
theorem create_reviews_go_spec {users : List User} {listings : List Listing}
    {draw : Nat → Nat → Nat × Nat} {ratingPick : Nat → Fin 5} {commentPick : Nat → Fin 10} :
    ∀ {k i combos acc s rs s'},
      create_reviews_go users listings draw ratingPick commentPick i k combos acc s =
        some (rs, s') →
      ∃ t, rs = acc ++ t ∧ s'.reviews = s.reviews ++ t ∧
        ∀ r ∈ t, (∃ l ∈ listings, r.property = l.listing_id ∧ r.user ≠ l.host) ∧
          1 ≤ r.rating ∧ r.rating ≤ 5 := by
  intro k
  induction k with
  | zero =>
    intro i combos acc s rs s' h
    unfold create_reviews_go at h
    injection h with h
    have hacc : acc = rs := congrArg Prod.fst h
    have hst : s = s' := congrArg Prod.snd h
    subst hacc
    subst hst
    exact ⟨[], by simp, by simp, by simp⟩
  | succ n ih =>
    intro i combos acc s rs s' h
    unfold create_reviews_go at h
    cases hsel : selectPair users listings combos (draw i) 0 50 with
    | none =>
      rw [hsel] at h
      dsimp only at h
      exact ih h
    | some pr =>
      obtain ⟨user, property_obj⟩ := pr
      rw [hsel] at h
      dsimp only at h
      cases hc : Store.reviewCreate s
          ⟨property_obj.listing_id, user.userId,
            ratings_choices.getD (ratingPick i).val 1,
            sample_comments.getD (commentPick i).val ""⟩ with
      | none =>
        rw [hc] at h
        dsimp only at h
        cases h
      | some s1 =>
        rw [hc] at h
        dsimp only at h
        obtain ⟨t1, hrs, hrev, hall⟩ := ih h
        obtain ⟨-, rfl⟩ := Store.reviewCreate_some_iff.mp hc
        obtain ⟨-, hmemL, hne⟩ := selectPair_some hsel
        refine ⟨⟨property_obj.listing_id, user.userId,
          ratings_choices.getD (ratingPick i).val 1,
          sample_comments.getD (commentPick i).val ""⟩ :: t1, ?_, ?_, ?_⟩
        · rw [hrs]
          simp
        · rw [hrev]
          dsimp only
          simp
        · intro r hr
          rcases List.mem_cons.mp hr with hr0 | hrt
          · subst hr0
            refine ⟨⟨property_obj, hmemL, rfl, hne⟩, ?_⟩
            exact ratings_choices_getD_bounds (ratingPick i)
          · exact hall r hrt

/-- C2 (amended): every review created by the seed command's
`create_reviews` is for a stored listing whose host differs from the
reviewing user; review creation through `ReviewSerializer` performs no such
check (see the counterexample), so only the seeder upholds the rule. -/
theorem c2_seed_reviews_not_by_host (users : List User) (listings : List Listing)
    (draw : Nat → Nat → Nat × Nat) (ratingPick : Nat → Fin 5) (commentPick : Nat → Fin 10)
    (count : Nat) (s : Store) (rs : List Review) (s' : Store)
    (h : create_reviews users listings draw ratingPick commentPick count s = some (rs, s')) :
    ∀ r ∈ rs, listings.any (fun l => r.property == l.listing_id && r.user != l.host) = true := by
  obtain ⟨t, rfl, -, hall⟩ := create_reviews_go_spec h
  intro r hr
  obtain ⟨⟨l, hl, hp, hne⟩, -, -⟩ := hall r (by simpa using hr)
  rw [List.any_eq_true]
  refine ⟨l, hl, ?_⟩
  simp [hp, hne]

/-- C2 witness: a concrete seeded review is for listing 1 whose host (2)
differs from its author (1). -/
theorem c2_seed_reviews_not_by_host_witness :
    ([⟨1, 2, 10000, 2, true⟩] : List Listing).any
      (fun l => (⟨1, 1, 1, "comment one"⟩ : Review).property == l.listing_id &&
        (⟨1, 1, 1, "comment one"⟩ : Review).user != l.host) = true :=
  c2_seed_reviews_not_by_host [⟨1, "a", false⟩, ⟨2, "b", false⟩] [⟨1, 2, 10000, 2, true⟩]
    (fun _ _ => (0, 0)) (fun _ => 0) (fun _ => 0) 1
    ⟨[⟨1, "a", false⟩, ⟨2, "b", false⟩], [⟨1, 2, 10000, 2, true⟩], [], []⟩
    [⟨1, 1, 1, "comment one"⟩]
    ⟨[⟨1, "a", false⟩, ⟨2, "b", false⟩], [⟨1, 2, 10000, 2, true⟩], [],
      [⟨1, 1, 1, "comment one"⟩]⟩
    (by decide) ⟨1, 1, 1, "comment one"⟩ (by decide)

/-- C2 counterexample: `ReviewSerializer` accepts (and persists) a review
whose author, user 5, is the host of the reviewed listing — so not every
host self-review request is rejected. -/
theorem c2_counterexample :
    (reviewSerializerCreate ⟨[⟨5, "h", false⟩], [⟨1, 5, 10000, 2, true⟩], [], []⟩
        ⟨1, 5, 5, "great"⟩).map (fun s => s.reviews) =
      Except.ok [⟨1, 5, 5, "great"⟩] ∧
    (Store.findListing ⟨[⟨5, "h", false⟩], [⟨1, 5, 10000, 2, true⟩], [], []⟩ 1).map
      Listing.host = some 5 :=
  ⟨by decide, by decide⟩

/-- `rneDiv` is the ties-to-even rounding of the exact rational quotient. -/
theorem rneDiv_cast_eq (num den : Nat) (hden : den ≠ 0) :
    ((rneDiv num den : ℕ) : ℤ) = roundHalfEven ((num : ℚ) / (den : ℚ)) := by
  have hd0 : (0 : ℚ) < (den : ℚ) := by exact_mod_cast Nat.pos_of_ne_zero hden
  unfold roundHalfEven rneDiv
  dsimp only
  set q := num / den with hq
  set r := num % den with hr
  have hnum : num = den * q + r := by rw [hq, hr]; exact (Nat.div_add_mod num den).symm
  have hrlt : r < den := by rw [hr]; exact Nat.mod_lt _ (Nat.pos_of_ne_zero hden)
  have hnq : (num : ℚ) = (den : ℚ) * (q : ℚ) + (r : ℚ) := by exact_mod_cast hnum
  have hr0 : (0 : ℚ) ≤ (r : ℚ) := by positivity
  have hrldq : (r : ℚ) < (den : ℚ) := by exact_mod_cast hrlt
  have hfloor : ⌊(num : ℚ) / (den : ℚ)⌋ = ((q : ℕ) : ℤ) := by
    rw [Int.floor_eq_iff]
    constructor
    · rw [le_div_iff₀ hd0]
      push_cast
      nlinarith
    · rw [div_lt_iff₀ hd0]
      push_cast
      nlinarith
  have hfrac : (num : ℚ) / (den : ℚ) - (((q : ℕ) : ℤ) : ℚ) = (r : ℚ) / (den : ℚ) := by
    push_cast
    field_simp
    rw [hnq]
    ring
  rw [hfloor]
  by_cases h1 : 2 * r < den
  · have hlt : (num : ℚ) / (den : ℚ) - (((q : ℕ) : ℤ) : ℚ) < 1 / 2 := by
      rw [hfrac, div_lt_div_iff₀ hd0 (by norm_num)]
      have h1q : ((2 * r : ℕ) : ℚ) < (den : ℚ) := by exact_mod_cast h1
      push_cast at h1q
      linarith
    rw [if_pos h1, if_pos hlt]
  · by_cases h2 : den < 2 * r
    · have hgt : (num : ℚ) / (den : ℚ) - (((q : ℕ) : ℤ) : ℚ) > 1 / 2 := by
        rw [hfrac, gt_iff_lt, div_lt_div_iff₀ (by norm_num) hd0]
        have h2q : ((den : ℕ) : ℚ) < ((2 * r : ℕ) : ℚ) := by exact_mod_cast h2
        push_cast at h2q
        linarith
      have hnlt : ¬((num : ℚ) / (den : ℚ) - (((q : ℕ) : ℤ) : ℚ) < 1 / 2) := by linarith
      rw [if_neg h1, if_pos h2, if_neg hnlt, if_pos hgt]
      push_cast
      ring
    · have heq : 2 * r = den := by omega
      have htie : (num : ℚ) / (den : ℚ) - (((q : ℕ) : ℤ) : ℚ) = 1 / 2 := by
        rw [hfrac, div_eq_div_iff (ne_of_gt hd0) (by norm_num)]
        have heqq : ((2 * r : ℕ) : ℚ) = ((den : ℕ) : ℚ) := by exact_mod_cast heq
        push_cast at heqq
        linarith
      have hc1 : ¬((num : ℚ) / (den : ℚ) - (((q : ℕ) : ℤ) : ℚ) < 1 / 2) := by
        rw [htie]; exact lt_irrefl _
      have hc2 : ¬((num : ℚ) / (den : ℚ) - (((q : ℕ) : ℤ) : ℚ) > 1 / 2) := by
        rw [gt_iff_lt, htie]; exact lt_irrefl _
      rw [if_neg h1, if_neg h2, if_neg hc1, if_neg hc2]
      by_cases hp : q % 2 = 0
      · have hpz : ((q : ℕ) : ℤ) % 2 = 0 := by omega
        rw [if_pos hp, if_pos hpz]
      · have hpz : ¬ (((q : ℕ) : ℤ) % 2 = 0) := by omega
        rw [if_neg hp, if_neg hpz]
        push_cast
        ring

/-- Rounding a natural number is the identity. -/
theorem roundHalfEven_natCast (k : ℕ) : roundHalfEven ((k : ℕ) : ℚ) = (k : ℤ) := by
  unfold roundHalfEven
  dsimp only
  rw [Int.floor_natCast]
  rw [if_pos (by push_cast; norm_num)]

/-- The integer-arithmetic tenths value agrees with rounding the exact
dyadic value of the double to one decimal place: the double is `m·2^(e−52)`
with `m < 2^53`, so `10·m / 2^(52−e)` (or `10·m·2^(e−52)`) is its exact
tenfold, and the decimal rounding of a dyadic never ties. -/
theorem floatDivTenths_eq_round1 (s n : Nat) :
    ((floatDivTenths s n : ℕ) : ℚ) / 10 = round1 (fl64val s n) := by
  unfold floatDivTenths fl64val round1
  by_cases hn : n = 0
  · rw [if_pos hn, if_pos hn]
    rw [show (10 : ℚ) * 0 = ((0 : ℕ) : ℚ) by norm_num, roundHalfEven_natCast]
    norm_num
  · rw [if_neg hn, if_neg hn]
    by_cases hs : s = 0
    · rw [if_pos hs, if_pos hs]
      rw [show (10 : ℚ) * 0 = ((0 : ℕ) : ℚ) by norm_num, roundHalfEven_natCast]
      norm_num
    · rw [if_neg hs, if_neg hs]
      dsimp only
      by_cases he : (0 : ℤ) ≤ 52 - fl64exp s n
      · rw [if_pos he]
        have hden : (2 : ℕ) ^ ((52 - fl64exp s n).toNat) ≠ 0 := by positivity
        have hA := rneDiv_cast_eq (10 * fl64sig s n) (2 ^ ((52 - fl64exp s n).toNat)) hden
        have hAq := congrArg (fun z : ℤ => (z : ℚ)) hA
        push_cast at hAq
        rw [hAq]
        congr 2
        have hz : ((2 : ℚ) ^ (fl64exp s n - 52)) =
            (((2 : ℕ) ^ ((52 - fl64exp s n).toNat) : ℕ) : ℚ)⁻¹ := by
          set k := (52 - fl64exp s n).toNat with hkdef
          have hk : ((k : ℕ) : ℤ) = 52 - fl64exp s n := Int.toNat_of_nonneg he
          rw [show fl64exp s n - 52 = -((k : ℕ) : ℤ) by rw [hk]; ring]
          rw [zpow_neg, zpow_natCast]
          push_cast
          ring
        rw [hz]
        push_cast
        field_simp
      · rw [if_neg he]
        have he2 : (0 : ℤ) ≤ fl64exp s n - 52 := by omega
        have hz : ((2 : ℚ) ^ (fl64exp s n - 52)) =
            (((2 : ℕ) ^ ((fl64exp s n - 52).toNat) : ℕ) : ℚ) := by
          set k := (fl64exp s n - 52).toNat with hkdef
          have hk : ((k : ℕ) : ℤ) = fl64exp s n - 52 := Int.toNat_of_nonneg he2
          rw [show fl64exp s n - 52 = ((k : ℕ) : ℤ) by rw [hk]]
          rw [zpow_natCast]
          push_cast
          ring
        rw [hz]
        rw [show (10 : ℚ) * ((fl64sig s n : ℚ) *
            (((2 : ℕ) ^ ((fl64exp s n - 52).toNat) : ℕ) : ℚ)) =
            ((10 * fl64sig s n * 2 ^ ((fl64exp s n - 52).toNat) : ℕ) : ℚ) by push_cast; ring]
        rw [roundHalfEven_natCast]
        push_cast
        ring

/-- On a listing with reviews, `average_rating` is the computed tenths
value over 10. -/
theorem average_rating_eval (s : Store) (l : Listing) (t : Nat)
    (hne : s.listingReviews l ≠ [])
    (ht : floatDivTenths ((s.listingReviews l).map (fun r => r.rating)).sum
      (s.listingReviews l).length = t) :
    Listing.average_rating s l = (t : ℚ) / 10 := by
  unfold Listing.average_rating
  dsimp only
  rw [if_pos hne, ht]

/-- The mean of the ratings as a cast of the integer rating sum. -/
theorem meanRating_natCast (rs : List Review) :
    meanRating rs = (((rs.map (fun r => r.rating)).sum : ℕ) : ℚ) / (rs.length : ℚ) := by
  unfold meanRating
  congr 1
  rw [Nat.cast_list_sum, List.map_map]
  rfl

/-- C10 (amended): `average_rating` is 0 for a listing with no reviews, and
otherwise the one-decimal rounding of the binary64 float quotient of the
integer rating sum by the review count — which is NOT always the exactly
rounded arithmetic mean, because the float can fall on the other side of a
decimal boundary (see the counterexample); `review_count` is the number of
associated reviews. -/
theorem c10_average_rating (s : Store) (l : Listing) :
    (s.listingReviews l = [] → Listing.average_rating s l = 0) ∧
    (s.listingReviews l ≠ [] →
      Listing.average_rating s l =
        round1 (fl64val ((s.listingReviews l).map (fun r => r.rating)).sum
          (s.listingReviews l).length)) ∧
    Listing.review_count s l = (s.listingReviews l).length := by
  refine ⟨?_, ?_, rfl⟩
  · intro h
    unfold Listing.average_rating
    dsimp only
    rw [if_neg (fun hc => hc h)]
  · intro h
    unfold Listing.average_rating
    dsimp only
    rw [if_pos h]
    exact floatDivTenths_eq_round1 _ _

/-- C10 witness: zero average on a reviewless listing; the rounded float
mean of ratings 4 and 5 (sum 9, count 2) and count 2 otherwise. -/
theorem c10_average_rating_witness :
    Listing.average_rating ⟨[], [⟨1, 7, 10000, 2, true⟩], [], []⟩ ⟨1, 7, 10000, 2, true⟩ = 0 ∧
    Listing.average_rating
        ⟨[], [⟨1, 7, 10000, 2, true⟩], [], [⟨1, 2, 4, "a"⟩, ⟨1, 3, 5, "b"⟩]⟩
        ⟨1, 7, 10000, 2, true⟩ =
      round1 (fl64val 9 2) ∧
    Listing.review_count ⟨[], [⟨1, 7, 10000, 2, true⟩], [], [⟨1, 2, 4, "a"⟩, ⟨1, 3, 5, "b"⟩]⟩
        ⟨1, 7, 10000, 2, true⟩ = 2 :=
  ⟨(c10_average_rating ⟨[], [⟨1, 7, 10000, 2, true⟩], [], []⟩ ⟨1, 7, 10000, 2, true⟩).1
      (by decide),
    (c10_average_rating ⟨[], [⟨1, 7, 10000, 2, true⟩], [], [⟨1, 2, 4, "a"⟩, ⟨1, 3, 5, "b"⟩]⟩
      ⟨1, 7, 10000, 2, true⟩).2.1 (by decide),
    (c10_average_rating ⟨[], [⟨1, 7, 10000, 2, true⟩], [], [⟨1, 2, 4, "a"⟩, ⟨1, 3, 5, "b"⟩]⟩
      ⟨1, 7, 10000, 2, true⟩).2.2⟩

/-- C10 counterexample: at twenty reviews summing to 87, `87 / 20` is the
double `4.34999999999999964…`, strictly below the `4.35` tie, so the
source computes `round(87/20, 1) = 4.3`, while the exact arithmetic mean
rounded to one decimal place (ties to even) is `4.4`: `average_rating` is
not the rounded mean. -/
theorem c10_counterexample :
    Listing.average_rating twentyReviewStore twentyReviewListing ≠
      round1 (meanRating (Store.listingReviews twentyReviewStore twentyReviewListing)) ∧
    Listing.average_rating twentyReviewStore twentyReviewListing = 43 / 10 ∧
    round1 (meanRating (Store.listingReviews twentyReviewStore twentyReviewListing)) =
      44 / 10 := by
  have hA : Listing.average_rating twentyReviewStore twentyReviewListing =
      ((43 : ℕ) : ℚ) / 10 :=
    average_rating_eval twentyReviewStore twentyReviewListing 43 (by decide) (by decide)
  have hrev : Store.listingReviews twentyReviewStore twentyReviewListing =
      twentyReviews := by rfl
  have hsum : (twentyReviews.map (fun r => r.rating)).sum = 87 := by rfl
  have hlen : twentyReviews.length = 20 := by rfl
  have hmean : meanRating (Store.listingReviews twentyReviewStore twentyReviewListing) =
      (87 : ℚ) / 20 := by
    rw [hrev, meanRating_natCast, hsum, hlen]
    norm_num
  have h45 : (10 : ℚ) * (87 / 20) = 87 / 2 := by norm_num
  have hB : round1 ((87 : ℚ) / 20) = 44 / 10 := by
    unfold round1 roundHalfEven
    dsimp only
    rw [h45]
    have hf : ⌊(87 / 2 : ℚ)⌋ = 43 := by
      rw [Int.floor_eq_iff]
      refine ⟨by norm_num, by norm_num⟩
    rw [hf]
    have hc1 : ¬((87 / 2 : ℚ) - ((43 : ℤ) : ℚ) < 1 / 2) := by push_cast; norm_num
    have hc2 : ¬((87 / 2 : ℚ) - ((43 : ℤ) : ℚ) > 1 / 2) := by push_cast; norm_num
    have hc3 : ¬((43 : ℤ) % 2 = 0) := by decide
    rw [if_neg hc1, if_neg hc2, if_neg hc3]
    push_cast
    norm_num
  refine ⟨?_, ?_, ?_⟩
  · rw [hA, hmean, hB]
    norm_num
  · rw [hA]
    norm_num
  · rw [hmean]
    exact hB

/-! ## Seed command: user counting (claim C9) -/

/-- Appending distinct final characters yields distinct strings. -/
theorem string_append_last_ne (a b : String) (c d : Char) (h : c ≠ d) :
    a ++ String.mk [c] ≠ b ++ String.mk [d] := by
  intro hh
  have h2 := congrArg (fun s => s.data.getLast?) hh
  simp only [String.data_append] at h2
  rw [List.getLast?_concat, List.getLast?_concat] at h2
  injection h2 with h2
  exact h h2

/-- The usernames generated at the first three loop indices of
`create_users` are pairwise distinct (their final digit differs). -/
theorem genUsername_ne {pick : Nat → Fin 14 × Fin 12} {i j : Nat}
    (hi : i < 3) (hj : j < 3) (hij : i ≠ j) :
    genUsername pick i ≠ genUsername pick j := by
  unfold genUsername
  interval_cases i <;> interval_cases j <;>
    first
      | exact absurd rfl hij
      | (rw [show (toString (0 + 1) : String) = String.mk ['1'] from by decide]
         rw [show (toString (1 + 1) : String) = String.mk ['2'] from by decide]
         exact string_append_last_ne _ _ _ _ (by decide))
      | (rw [show (toString (0 + 1) : String) = String.mk ['1'] from by decide]
         rw [show (toString (2 + 1) : String) = String.mk ['3'] from by decide]
         exact string_append_last_ne _ _ _ _ (by decide))
      | (rw [show (toString (1 + 1) : String) = String.mk ['2'] from by decide]
         rw [show (toString (2 + 1) : String) = String.mk ['3'] from by decide]
         exact string_append_last_ne _ _ _ _ (by decide))

/-- `create_users` step when `get_or_create` finds an existing user. -/
theorem create_users_go_found (pick : Nat → Fin 14 × Fin 12) (i k : Nat)
    (acc : List User) (s : Store) (nid : Nat) (u : User)
    (h : s.users.find? (fun x => x.username == genUsername pick i) = some u) :
    create_users_go pick i (k + 1) acc s nid =
      create_users_go pick (i + 1) k (acc ++ [u]) s nid := by
  conv_lhs => unfold create_users_go
  dsimp only
  rw [h]

/-- `create_users` step when `get_or_create` creates a fresh plain user. -/
theorem create_users_go_new (pick : Nat → Fin 14 × Fin 12) (i k : Nat)
    (acc : List User) (s : Store) (nid : Nat)
    (h : s.users.find? (fun x => x.username == genUsername pick i) = none) :
    create_users_go pick i (k + 1) acc s nid =
      create_users_go pick (i + 1) k (acc ++ [⟨nid, genUsername pick i, false⟩])
        { s with users := s.users ++ [⟨nid, genUsername pick i, false⟩] } (nid + 1) := by
  conv_lhs => unfold create_users_go
  dsimp only
  rw [h]

/-- Each iteration of `create_listings` persists exactly one listing and
touches nothing else; with a nonempty user list the whole loop succeeds. -/
theorem create_listings_go_spec {users : List User} {draw : Nat → ListingDraw}
    (hne : users ≠ []) :
    ∀ (k i : Nat) (acc : List Listing) (s : Store) (nid : Nat),
      ∃ ls s' nid', create_listings_go users draw i k acc s nid = some (ls, s', nid') ∧
        s'.listings.length = s.listings.length + k ∧
        s'.users = s.users ∧ s'.bookings = s.bookings ∧ s'.reviews = s.reviews := by
  intro k
  induction k with
  | zero =>
    intro i acc s nid
    exact ⟨acc, s, nid, rfl, by omega, rfl, rfl, rfl⟩
  | succ n ih =>
    intro i acc s nid
    have hlen : 0 < users.length := List.length_pos.mpr hne
    obtain ⟨host, hhost⟩ : ∃ h, users.get? ((draw i).hostIdx % users.length) = some h := by
      cases hg : users.get? ((draw i).hostIdx % users.length) with
      | none =>
        rw [List.get?_eq_none] at hg
        have := Nat.mod_lt (draw i).hostIdx hlen
        omega
      | some u => exact ⟨u, rfl⟩
    obtain ⟨ls, s', nid', heq, hl, hu, hb, hr⟩ := ih (i + 1)
      (acc ++ [⟨nid, host.userId,
        (if i < 5 then sample_prices.getD i 0 else (((50 + (draw i).priceR % 351) * 100 : Nat) : Int)),
        1 + (draw i).maxGuestsR % 8, availability_choices.getD (draw i).availIdx.val true⟩])
      { s with listings := s.listings ++ [⟨nid, host.userId,
        (if i < 5 then sample_prices.getD i 0 else (((50 + (draw i).priceR % 351) * 100 : Nat) : Int)),
        1 + (draw i).maxGuestsR % 8, availability_choices.getD (draw i).availIdx.val true⟩] }
      (nid + 1)
    refine ⟨ls, s', nid', ?_, ?_, ?_, ?_, ?_⟩
    · conv_lhs => unfold create_listings_go
      dsimp only
      rw [hhost]
      exact heq
    · simp only [List.length_append, List.length_cons, List.length_nil] at hl ⊢
      omega
    · simpa using hu
    · simpa using hb
    · simpa using hr

/-- C9 (amended): running the seed command with
`--listings 5 --users 3 --bookings 0 --reviews 0 --clear` leaves exactly 5
listings, 3 non-superuser users, no bookings and no reviews, PROVIDED no
surviving superuser's username collides with a generated username (such a
collision makes `get_or_create` reuse the superuser; see the
counterexample). -/
theorem c9_seed_counts (rng : SeedRandom) (today : Int) (s : Store) (nid : Nat)
    (hcol : ∀ i, i < 3 → ∀ u ∈ s.users, u.is_superuser = true →
      u.username ≠ genUsername rng.namePick i) :
    (Command.handle ⟨5, 3, 0, 0, true⟩ rng today s nid).map
      (fun s' => (s'.listings.length,
        (s'.users.filter (fun u => !u.is_superuser)).length,
        s'.bookings.length, s'.reviews.length)) = some (5, 3, 0, 0) := by
  set A := s.users.filter (fun u => u.is_superuser) with hA
  have hAsup : ∀ u ∈ A, u.is_superuser = true := by
    intro u hu
    have := List.mem_filter.mp hu
    simpa using this.2
  have hAmem : ∀ u ∈ A, u ∈ s.users := fun u hu => (List.mem_filter.mp hu).1
  have hf0 : (⟨A, [], [], []⟩ : Store).users.find?
      (fun x => x.username == genUsername rng.namePick 0) = none := by
    rw [List.find?_eq_none]
    intro u hu
    simp only [beq_iff_eq]
    exact hcol 0 (by omega) u (hAmem u hu) (hAsup u hu)
  have hf1 : (⟨A ++ [⟨nid, genUsername rng.namePick 0, false⟩], [], [], []⟩ : Store).users.find?
      (fun x => x.username == genUsername rng.namePick 1) = none := by
    rw [List.find?_eq_none]
    intro u hu
    simp only [beq_iff_eq]
    rcases List.mem_append.mp hu with h | h
    · exact hcol 1 (by omega) u (hAmem u h) (hAsup u h)
    · have : u = ⟨nid, genUsername rng.namePick 0, false⟩ := by simpa using h
      subst this
      exact genUsername_ne (by omega) (by omega) (by omega)
  have hf2 : (⟨(A ++ [⟨nid, genUsername rng.namePick 0, false⟩]) ++
      [⟨nid + 1, genUsername rng.namePick 1, false⟩], [], [], []⟩ : Store).users.find?
      (fun x => x.username == genUsername rng.namePick 2) = none := by
    rw [List.find?_eq_none]
    intro u hu
    simp only [beq_iff_eq]
    rcases List.mem_append.mp hu with h | h
    · rcases List.mem_append.mp h with h2 | h2
      · exact hcol 2 (by omega) u (hAmem u h2) (hAsup u h2)
      · have : u = ⟨nid, genUsername rng.namePick 0, false⟩ := by simpa using h2
        subst this
        exact genUsername_ne (by omega) (by omega) (by omega)
    · have : u = ⟨nid + 1, genUsername rng.namePick 1, false⟩ := by simpa using h
      subst this
      exact genUsername_ne (by omega) (by omega) (by omega)
  have e0 : create_users_go rng.namePick 0 3 [] (⟨A, [], [], []⟩ : Store) nid =
      create_users_go rng.namePick 1 2 [⟨nid, genUsername rng.namePick 0, false⟩]
        ⟨A ++ [⟨nid, genUsername rng.namePick 0, false⟩], [], [], []⟩ (nid + 1) :=
    create_users_go_new rng.namePick 0 2 [] ⟨A, [], [], []⟩ nid hf0
  have e1 : create_users_go rng.namePick 1 2 [⟨nid, genUsername rng.namePick 0, false⟩]
      (⟨A ++ [⟨nid, genUsername rng.namePick 0, false⟩], [], [], []⟩ : Store) (nid + 1) =
      create_users_go rng.namePick 2 1
        [⟨nid, genUsername rng.namePick 0, false⟩, ⟨nid + 1, genUsername rng.namePick 1, false⟩]
        ⟨(A ++ [⟨nid, genUsername rng.namePick 0, false⟩]) ++
          [⟨nid + 1, genUsername rng.namePick 1, false⟩], [], [], []⟩ (nid + 2) :=
    create_users_go_new rng.namePick 1 1 [⟨nid, genUsername rng.namePick 0, false⟩]
      ⟨A ++ [⟨nid, genUsername rng.namePick 0, false⟩], [], [], []⟩ (nid + 1) hf1
  have e2 : create_users_go rng.namePick 2 1
      [⟨nid, genUsername rng.namePick 0, false⟩, ⟨nid + 1, genUsername rng.namePick 1, false⟩]
      (⟨(A ++ [⟨nid, genUsername rng.namePick 0, false⟩]) ++
        [⟨nid + 1, genUsername rng.namePick 1, false⟩], [], [], []⟩ : Store) (nid + 2) =
      ([⟨nid, genUsername rng.namePick 0, false⟩, ⟨nid + 1, genUsername rng.namePick 1, false⟩,
          ⟨nid + 2, genUsername rng.namePick 2, false⟩],
        ⟨((A ++ [⟨nid, genUsername rng.namePick 0, false⟩]) ++
          [⟨nid + 1, genUsername rng.namePick 1, false⟩]) ++
          [⟨nid + 2, genUsername rng.namePick 2, false⟩], [], [], []⟩, nid + 3) :=
    (create_users_go_new rng.namePick 2 0
      [⟨nid, genUsername rng.namePick 0, false⟩, ⟨nid + 1, genUsername rng.namePick 1, false⟩]
      ⟨(A ++ [⟨nid, genUsername rng.namePick 0, false⟩]) ++
        [⟨nid + 1, genUsername rng.namePick 1, false⟩], [], [], []⟩ (nid + 2) hf2)
  obtain ⟨ls, s2, nid2, heq, hlen, hu2, hb2, hr2⟩ :=
    @create_listings_go_spec [⟨nid, genUsername rng.namePick 0, false⟩,
      ⟨nid + 1, genUsername rng.namePick 1, false⟩, ⟨nid + 2, genUsername rng.namePick 2, false⟩]
      rng.listingDraw (by simp) 5 0 []
      ⟨((A ++ [⟨nid, genUsername rng.namePick 0, false⟩]) ++
        [⟨nid + 1, genUsername rng.namePick 1, false⟩]) ++
        [⟨nid + 2, genUsername rng.namePick 2, false⟩], [], [], []⟩ (nid + 3)
  have hfinal : Command.handle ⟨5, 3, 0, 0, true⟩ rng today s nid = some s2 := by
    unfold Command.handle Store.clearData create_users create_listings create_bookings create_reviews
    dsimp only
    rw [if_pos (Eq.refl true)]
    rw [e0, e1, e2]
    dsimp only
    rw [heq]
    dsimp only
    unfold create_bookings_go
    dsimp only
    unfold create_reviews_go
    dsimp only
  rw [hfinal]
  have hfA : A.filter (fun u => !u.is_superuser) = [] := by
    rw [List.filter_eq_nil_iff]
    intro u hu
    simp [hAsup u hu]
  simp only [Option.map, Option.some.injEq]
  rw [hlen, hu2, hb2, hr2]
  dsimp only
  simp [hfA, List.filter_append, List.filter]

/-- C9 witness: from a store with no superusers at all, the seeded store
has exactly 5 listings, 3 non-superuser users, 0 bookings and 0 reviews. -/
theorem c9_seed_counts_witness :
    (Command.handle ⟨5, 3, 0, 0, true⟩
        ⟨fun _ => (0, 0), fun _ => ⟨0, 0, 0, 0⟩, fun _ => ⟨0, 0, 0, 0, 0, 0⟩,
          fun _ _ => (0, 0), fun _ => 0, fun _ => 0⟩ 0
        ⟨[⟨0, "bob", false⟩], [], [], []⟩ 10).map
      (fun s' => (s'.listings.length,
        (s'.users.filter (fun u => !u.is_superuser)).length,
        s'.bookings.length, s'.reviews.length)) = some (5, 3, 0, 0) :=
  c9_seed_counts
    ⟨fun _ => (0, 0), fun _ => ⟨0, 0, 0, 0⟩, fun _ => ⟨0, 0, 0, 0, 0, 0⟩,
      fun _ _ => (0, 0), fun _ => 0, fun _ => 0⟩ 0
    ⟨[⟨0, "bob", false⟩], [], [], []⟩ 10
    (by decide)

/-- C9 counterexample: starting from a store holding a superuser named
"johnsmith1", the same seed invocation leaves only 2 non-superuser users
(the first generated username collides and `get_or_create` returns the
superuser), refuting the claim for arbitrary starting stores. -/
theorem c9_counterexample :
    (Command.handle ⟨5, 3, 0, 0, true⟩
        ⟨fun _ => (0, 0), fun _ => ⟨0, 0, 0, 0⟩, fun _ => ⟨0, 0, 0, 0, 0, 0⟩,
          fun _ _ => (0, 0), fun _ => 0, fun _ => 0⟩ 0
        ⟨[⟨0, "johnsmith1", true⟩], [], [], []⟩ 10).map
      (fun s' => (s'.listings.length,
        (s'.users.filter (fun u => !u.is_superuser)).length,
        s'.bookings.length, s'.reviews.length)) = some (5, 2, 0, 0) := by
  decide

example : validate_rating 0 = .error ⟨"rating", "Rating must be between 1 and 5."⟩ := by decide
example : (validate_rating 3).isOk = true := by decide
example : genUsername (fun _ => (0, 0)) 0 = "johnsmith1" := by decide
